import Mathlib

/-!
# Verification of the aider MCP configuration resolver

Shallow embedding of `src/aider/mcp/config.py`, `src/aider/mcp/manager.py`
and the CLI-combination step of `src/aider/mcp/client.py`, together with
theorems settling the claims about the configuration resolution and merge
engine.

Python `float` modification times are modelled as `Nat`; the filesystem is a
finite list of entries, each carrying an optional stat result (`none` models
an `OSError` from `os.path.getmtime`) and an optional parsed content (`none`
models a `json.JSONDecodeError`/`ValidationError`, i.e. a malformed file).
Exceptions escaping a Python function are modelled with `Except String`.
-/

namespace AiderMCP

/-- `MCPServerConfig` from `src/aider/mcp/manager.py` (a pydantic model):
`name` and `transport` are required, the rest default to `None`/`True`. -/
structure MCPServerConfig where
  name : String
  transport : String
  command : Option (List String) := none
  url : Option String := none
  env : Option (List (String × String)) := none
  enabled : Bool := true
deriving Repr, DecidableEq

/-- Which fields of an `MCPSettings` pydantic instance were explicitly set at
construction (pydantic's `__fields_set__`, consulted by
`model_dump(exclude_unset=True)`). -/
structure SettingsFieldsSet where
  enabled : Bool := false
  timeout : Bool := false
  max_retries : Bool := false
  context_limit : Bool := false
  cache_ttl : Bool := false
  log_level : Bool := false
deriving Repr, DecidableEq

/-- All six fields marked as explicitly set (the result of constructing an
`MCPSettings` from a full keyword dict, as `_merge_configurations` does). -/
def SettingsFieldsSet.all : SettingsFieldsSet :=
  ⟨true, true, true, true, true, true⟩

/-- `MCPSettings` from `src/aider/mcp/config.py`, with pydantic defaults and
the set-fields mask carried alongside the values. -/
structure MCPSettings where
  enabled : Bool := true
  timeout : Int := 30
  max_retries : Int := 3
  context_limit : Int := 10000
  cache_ttl : Int := 300
  log_level : String := "INFO"
  fieldsSet : SettingsFieldsSet := {}
deriving Repr, DecidableEq

/-- The valid log levels of `MCPSettings.validate_log_level`. -/
def validLogLevels : List String :=
  ["DEBUG", "INFO", "WARNING", "ERROR", "CRITICAL"]

/-- Python `v.upper()` (character-wise upper-casing). -/
def pyUpper (s : String) : String :=
  String.mk (s.toList.map Char.toUpper)

/-- Whether the character list `s` begins with the character list `pat`. -/
def listStartsWith : List Char → List Char → Bool
  | _, [] => true
  | [], _ :: _ => false
  | c :: cs, d :: ds => c == d && listStartsWith cs ds

/-- Python `s.startswith(pat)`. -/
def pyStartsWith (s pat : String) : Bool :=
  listStartsWith s.toList pat.toList

/-- Python `s.strip()`: whitespace removed from both ends. -/
def pyStrip (s : String) : String :=
  String.mk (((s.toList.dropWhile Char.isWhitespace).reverse.dropWhile
      Char.isWhitespace).reverse)

/-- `MCPConfiguration` from `src/aider/mcp/config.py`: settings plus server
list, both defaulted. -/
structure MCPConfiguration where
  settings : MCPSettings := {}
  servers : List MCPServerConfig := []
deriving Repr, DecidableEq

/-- The `"settings"` object of a configuration JSON file: every key
optional. -/
structure SettingsData where
  enabled : Option Bool := none
  timeout : Option Int := none
  max_retries : Option Int := none
  context_limit : Option Int := none
  cache_ttl : Option Int := none
  log_level : Option String := none
deriving Repr, DecidableEq

/-- One element of the `"servers"` array of a configuration JSON file. -/
structure ServerData where
  name : String
  transport : String
  command : Option (List String) := none
  url : Option String := none
  env : Option (List (String × String)) := none
  enabled : Option Bool := none
deriving Repr, DecidableEq

/-- A parsed configuration JSON file: both top-level keys optional. -/
structure ConfigData where
  settings : Option SettingsData := none
  servers : Option (List ServerData) := none
deriving Repr, DecidableEq

/-- Constructing `MCPSettings(**data)`: defaults fill the missing fields and
the `validate_log_level` validator runs on a provided `log_level`, upper-casing
it and rejecting (pydantic `ValidationError`, modelled as `none`) a value whose
upper case is outside `validLogLevels`. -/
def mkMCPSettings (d : SettingsData) : Option MCPSettings :=
  match d.log_level with
  | none => some
      { enabled := d.enabled.getD true
        timeout := d.timeout.getD 30
        max_retries := d.max_retries.getD 3
        context_limit := d.context_limit.getD 10000
        cache_ttl := d.cache_ttl.getD 300
        log_level := "INFO"
        fieldsSet := ⟨d.enabled.isSome, d.timeout.isSome, d.max_retries.isSome,
                      d.context_limit.isSome, d.cache_ttl.isSome, false⟩ }
  | some v =>
      if pyUpper v ∈ validLogLevels then
        some
          { enabled := d.enabled.getD true
            timeout := d.timeout.getD 30
            max_retries := d.max_retries.getD 3
            context_limit := d.context_limit.getD 10000
            cache_ttl := d.cache_ttl.getD 300
            log_level := pyUpper v
            fieldsSet := ⟨d.enabled.isSome, d.timeout.isSome, d.max_retries.isSome,
                          d.context_limit.isSome, d.cache_ttl.isSome, true⟩ }
      else none

/-- Constructing `MCPServerConfig(**server)`: `enabled` defaults to `True`. -/
def mkMCPServerConfig (d : ServerData) : MCPServerConfig :=
  { name := d.name, transport := d.transport, command := d.command,
    url := d.url, env := d.env, enabled := d.enabled.getD true }

/-- Constructing `MCPConfiguration(**data)` from a parsed JSON file: a missing
`settings` key yields default settings (nothing explicitly set), a missing
`servers` key yields the empty list; a failing settings validator fails the
whole construction. -/
def mkMCPConfiguration (d : ConfigData) : Option MCPConfiguration :=
  let servers := (d.servers.getD []).map mkMCPServerConfig
  match d.settings with
  | none => some { settings := {}, servers := servers }
  | some sd => (mkMCPSettings sd).map (fun s => { settings := s, servers := servers })

/-- A plain dict of all six settings values, as produced by
`settings.model_dump()`. -/
structure SettingsDict where
  enabled : Bool
  timeout : Int
  max_retries : Int
  context_limit : Int
  cache_ttl : Int
  log_level : String
deriving Repr, DecidableEq

/-- `settings.model_dump()`: all six values, the set-fields mask dropped. -/
def MCPSettings.model_dump (s : MCPSettings) : SettingsDict :=
  ⟨s.enabled, s.timeout, s.max_retries, s.context_limit, s.cache_ttl, s.log_level⟩

/-- `merged_settings.update(override.model_dump(exclude_unset=True))`: each
field explicitly set in `override` replaces the dict entry, each unset field
leaves the dict entry alone. -/
def updateExcludeUnset (d : SettingsDict) (override : MCPSettings) : SettingsDict :=
  { enabled := if override.fieldsSet.enabled then override.enabled else d.enabled
    timeout := if override.fieldsSet.timeout then override.timeout else d.timeout
    max_retries := if override.fieldsSet.max_retries then override.max_retries else d.max_retries
    context_limit := if override.fieldsSet.context_limit then override.context_limit else d.context_limit
    cache_ttl := if override.fieldsSet.cache_ttl then override.cache_ttl else d.cache_ttl
    log_level := if override.fieldsSet.log_level then override.log_level else d.log_level }

/-- Constructing `MCPSettings(**merged_settings)` from a full dict: every field
explicitly set, the `log_level` validator applied. -/
def mkSettingsFromDict (d : SettingsDict) : Option MCPSettings :=
  if pyUpper d.log_level ∈ validLogLevels then
    some
      { enabled := d.enabled, timeout := d.timeout, max_retries := d.max_retries,
        context_limit := d.context_limit, cache_ttl := d.cache_ttl,
        log_level := pyUpper d.log_level, fieldsSet := SettingsFieldsSet.all }
  else none

/-- `MCPConfigurationManager._merge_configurations`: dict-update for settings
(override's explicitly set fields win), whole-list replacement for servers
(`override.servers if override.servers else base.servers`). The rebuilt
settings pass through the validator again, so the merge can fail (`none`)
exactly when that construction would raise. -/
def mergeConfigurations (base override : MCPConfiguration) : Option MCPConfiguration :=
  let merged_settings := updateExcludeUnset base.settings.model_dump override.settings
  let merged_servers := if override.servers.isEmpty then base.servers else override.servers
  (mkSettingsFromDict merged_settings).map
    (fun s => { settings := s, servers := merged_servers })

/-! ## Filesystem and manager state -/

/-- One file on the modelled filesystem. `mtime = none` models a file whose
`os.path.getmtime` raises `OSError` (e.g. a permission error); `data = none`
models a file whose read or parse raises (malformed JSON / failing schema). -/
structure FSEntry where
  path : String
  mtime : Option Nat
  data : Option ConfigData
deriving Repr, DecidableEq

/-- The modelled filesystem: a finite list of entries. A path with no entry
does not exist. -/
structure FS where
  entries : List FSEntry
deriving Repr, DecidableEq

/-- `Path.exists()`. -/
def FS.fileExists (fs : FS) (p : String) : Bool :=
  fs.entries.any (fun e => e.path == p)

/-- `os.path.getmtime(p)`: `none` when the stat raises (missing file or
permission error). -/
def FS.getmtime (fs : FS) (p : String) : Option Nat :=
  (fs.entries.find? (fun e => e.path == p)).bind (fun e => e.mtime)

/-- `_load_config_file(p)` up to configuration construction: `none` when the
open/`json.load` raises. -/
def FS.read (fs : FS) (p : String) : Option ConfigData :=
  (fs.entries.find? (fun e => e.path == p)).bind (fun e => e.data)

/-- Writing a JSON file: replaces any entry at `p` with fresh content and a
fresh modification time. -/
def FS.write (fs : FS) (p : String) (d : ConfigData) (now : Nat) : FS :=
  ⟨⟨p, some now, some d⟩ :: fs.entries.filter (fun e => e.path != p)⟩

/-- The mutable state of an `MCPConfigurationManager` together with its
`ConfigurationPaths` (paths are plain strings; `projectConfig` and `envConfig`
are optional, exactly as in `ConfigurationPaths`). -/
structure ManagerState where
  globalConfig : String
  projectConfig : Option String
  localConfig : String
  envConfig : Option String
  configCache : Option MCPConfiguration
  cacheTimestamp : Nat
deriving Repr, DecidableEq

/-- `MCPConfigurationManager.__init__` plus `ConfigurationPaths.__post_init__`:
fixed filenames under home / git root / cwd, the env-pointed path taken from
`AIDER_MCP_CONFIG` when set, empty cache, timestamp 0. -/
def ManagerState.init (home cwd : String) (gitRoot : Option String)
    (envVar : Option String) : ManagerState :=
  { globalConfig := home ++ "/.aider/mcp-config.json"
    projectConfig := gitRoot.map (fun r => r ++ "/.aider.mcp.json")
    localConfig := cwd ++ "/.aider.mcp.json"
    envConfig := envVar
    configCache := none
    cacheTimestamp := 0 }

/-- The `config_files` list of `load_configuration` / `_get_newest_config_file`
with the `None` entries dropped (the code guards each use with
`if config_file`). -/
def managerConfigPaths (m : ManagerState) : List String :=
  ([some m.globalConfig, m.projectConfig, some m.localConfig, m.envConfig]).filterMap id

/-- The existing config files, in ranking order. -/
def existingConfigFiles (m : ManagerState) (fs : FS) : List String :=
  (managerConfigPaths m).filter (fun p => fs.fileExists p)

/-- The loop of Python `max(existing_files, key=os.path.getmtime)`: keep the
current best (first maximum wins, replacement only on strictly greater key);
`none` when some key evaluation raises. -/
def pyMaxGo (fs : FS) (best : String) (bestTime : Nat) :
    List String → Option (String × Nat)
  | [] => some (best, bestTime)
  | p :: rest =>
    match fs.getmtime p with
    | none => none
    | some t =>
      if t > bestTime then pyMaxGo fs p t rest else pyMaxGo fs best bestTime rest

/-- `max(l, key=os.path.getmtime)`: `none` models a raised `OSError` (or the
`ValueError` of an empty list, which the caller rules out). -/
def pyMaxByMtime (fs : FS) : List String → Option (String × Nat)
  | [] => none
  | p :: rest =>
    match fs.getmtime p with
    | none => none
    | some t => pyMaxGo fs p t rest

/-- `MCPConfigurationManager._get_newest_config_file`: the default global path
when no source file exists, otherwise the existing file with the greatest
modification time; `none` models an `OSError` escaping from the `max` key. -/
def getNewestConfigFile (m : ManagerState) (fs : FS) : Option String :=
  let existing := existingConfigFiles m fs
  if existing.isEmpty then some m.globalConfig
  else (pyMaxByMtime fs existing).map (fun q => q.1)

/-- `MCPConfigurationManager._is_cache_valid`: newest existing file's
modification time at most the recorded timestamp; any raise inside the `try`
yields `False`. -/
def isCacheValid (m : ManagerState) (fs : FS) : Bool :=
  match getNewestConfigFile m fs with
  | none => false
  | some p =>
    match fs.getmtime p with
    | none => false
    | some t => t ≤ m.cacheTimestamp

/-- The cache-validity condition in the words of the specification (claim C4):
the cache is valid iff at least one source file exists, every existing source
file can be statted, and the greatest modification time among them is at most
the timestamp recorded at the last load. This definition follows the spec's
words; `isCacheValid` follows the source, and C4 compares the two. -/
def specCacheValid (m : ManagerState) (fs : FS) : Bool :=
  let ex := existingConfigFiles m fs
  !ex.isEmpty
    && ex.all (fun p => (fs.getmtime p).isSome)
    && ((ex.filterMap (fun p => fs.getmtime p)).foldl max 0 ≤ m.cacheTimestamp)

/-- One iteration of the `for config_file in config_files` loop of
`load_configuration`: a missing file contributes nothing; a file whose read,
schema validation or merge raises is skipped with a warning. -/
def loadStep (fs : FS) (acc : MCPConfiguration) (p : String) : MCPConfiguration :=
  if fs.fileExists p then
    match fs.read p with
    | none => acc
    | some d =>
      match mkMCPConfiguration d with
      | none => acc
      | some fileConfig =>
        match mergeConfigurations acc fileConfig with
        | none => acc
        | some merged => merged
  else acc

/-- The reload branch of `load_configuration`: fold the existing source files
over the default configuration, store the result in the cache, then set the
cache timestamp from `os.path.getmtime(self._get_newest_config_file())` — a
call that is NOT guarded by a `try` and whose raise escapes (with the cache
already holding the new configuration). -/
def reloadConfiguration (m : ManagerState) (fs : FS) :
    ManagerState × Except String MCPConfiguration :=
  let config := (managerConfigPaths m).foldl (loadStep fs) {}
  let m₁ := { m with configCache := some config }
  match getNewestConfigFile m₁ fs with
  | none => (m₁, Except.error "OSError")
  | some p =>
    match fs.getmtime p with
    | none => (m₁, Except.error "OSError")
    | some t => ({ m₁ with cacheTimestamp := t }, Except.ok config)

/-- `MCPConfigurationManager.load_configuration`: the cached configuration when
`force_reload` is false, a cache is present and still valid; a real reload
otherwise. -/
def loadConfiguration (m : ManagerState) (fs : FS) (forceReload : Bool) :
    ManagerState × Except String MCPConfiguration :=
  if !forceReload && m.configCache.isSome && isCacheValid m fs then
    (m, Except.ok (m.configCache.getD {}))
  else reloadConfiguration m fs

/-- The scope dispatch of `save_configuration`: `"global"` and `"local"` always
resolve, `"project"` only when a project config path is known, everything else
falls through to `raise ValueError`. -/
def resolveScopePath (m : ManagerState) (scope : String) : Option String :=
  if scope = "global" then some m.globalConfig
  else if scope = "project" then m.projectConfig
  else if scope = "local" then some m.localConfig
  else none

/-- `server.model_dump()` of an `MCPServerConfig` (all keys present, optional
fields dumped as `null` and read back as such). -/
def MCPServerConfig.dump (s : MCPServerConfig) : ServerData :=
  ⟨s.name, s.transport, s.command, s.url, s.env, some s.enabled⟩

/-- `settings.model_dump()` as it appears inside `config.model_dump()`: all six
keys present. -/
def MCPSettings.dumpData (s : MCPSettings) : SettingsData :=
  ⟨some s.enabled, some s.timeout, some s.max_retries, some s.context_limit,
   some s.cache_ttl, some s.log_level⟩

/-- `config.model_dump()` as written by `json.dump` in `save_configuration`. -/
def MCPConfiguration.dump (c : MCPConfiguration) : ConfigData :=
  ⟨some c.settings.dumpData, some (c.servers.map MCPServerConfig.dump)⟩

/-- `MCPConfigurationManager.save_configuration`: resolve the scope path (an
unresolvable scope raises `ValueError` before anything is written or
invalidated), write the dumped configuration, clear the in-memory cache. -/
def saveConfiguration (m : ManagerState) (fs : FS) (config : MCPConfiguration)
    (scope : String) (now : Nat) : ManagerState × FS × Except String String :=
  match resolveScopePath m scope with
  | none => (m, fs, Except.error ("Invalid scope: " ++ scope))
  | some configPath =>
    ({ m with configCache := none },
     fs.write configPath config.dump now,
     Except.ok configPath)

/-! ## Validation -/

/-- Python truthiness of an `Optional[str]`: `None` and `""` are falsy. -/
def strTruthy : Option String → Bool
  | none => false
  | some s => s ≠ ""

/-- Python truthiness of an `Optional[List[str]]`: `None` and `[]` are
falsy. -/
def cmdTruthy : Option (List String) → Bool
  | none => false
  | some l => !l.isEmpty

/-- `MCPConfigurationManager._validate_server_config`: transport-specific
checks followed by the name check. The `elif not isinstance(server.command,
list) or not server.command` branch can never fire on a typed
`MCPServerConfig` (the first branch already handled a falsy command and
`isinstance` holds by typing), and is modelled by the same unreachable
condition. -/
def validateServerConfig (server : MCPServerConfig) (index : Nat) : List String :=
  let pfx := "Server " ++ toString index ++ " (" ++ server.name ++ ")"
  let transportIssues :=
    if server.transport = "stdio" then
      if !cmdTruthy server.command then
        [pfx ++ ": stdio transport requires command"]
      else if !cmdTruthy server.command then
        [pfx ++ ": command must be a non-empty list"]
      else []
    else if server.transport = "websocket" then
      if !strTruthy server.url then
        [pfx ++ ": websocket transport requires url"]
      else if !(pyStartsWith (server.url.getD "") "ws://"
                 || pyStartsWith (server.url.getD "") "wss://") then
        [pfx ++ ": websocket url must start with ws:// or wss://"]
      else []
    else
      [pfx ++ ": unsupported transport '" ++ server.transport ++ "'"]
  let nameIssues :=
    if server.name = "" || pyStrip server.name = "" then
      [pfx ++ ": name cannot be empty"]
    else []
  transportIssues ++ nameIssues

/-- The `for i, server in enumerate(config.servers)` loop of
`validate_configuration`. -/
def validateServers (index : Nat) : List MCPServerConfig → List String
  | [] => []
  | s :: rest => validateServerConfig s index ++ validateServers (index + 1) rest

/-- `MCPConfigurationManager.validate_configuration`: per-server issues in
order, then the three settings checks. -/
def validate_configuration (config : MCPConfiguration) : List String :=
  validateServers 0 config.servers
    ++ (if config.settings.timeout ≤ 0 then ["Settings: timeout must be positive"] else [])
    ++ (if config.settings.max_retries < 0 then ["Settings: max_retries cannot be negative"] else [])
    ++ (if config.settings.context_limit ≤ 0 then ["Settings: context_limit must be positive"] else [])

/-! ## CLI server specs (`src/aider/mcp/manager.py`, `src/aider/mcp/client.py`) -/

/-- The loop of Python `s.split(sep, maxsplit)` on a single-character
separator: accumulate the current piece, split at a separator while splits
remain, and keep the separator inside the final piece once the budget is
exhausted. -/
def splitLimitGo (sep : Char) : List Char → Nat → List Char → List (List Char)
  | [], _, cur => [cur.reverse]
  | c :: rest, n, cur =>
    if c = sep then
      match n with
      | 0 => [cur.reverse ++ (c :: rest)]
      | k + 1 => cur.reverse :: splitLimitGo sep rest k []
    else splitLimitGo sep rest n (c :: cur)

/-- Python `server_spec.split(':', 2)`. -/
def pySplitColon2 (s : String) : List String :=
  (splitLimitGo ':' s.toList 2 []).map (fun l => String.mk l)

/-- The loop of Python `s.split()` (no separator): maximal runs of
non-whitespace characters, empty runs discarded. -/
def wsSplitGo : List Char → List Char → List (List Char)
  | [], cur => if cur.isEmpty then [] else [cur.reverse]
  | c :: rest, cur =>
    if c.isWhitespace then
      if cur.isEmpty then wsSplitGo rest []
      else cur.reverse :: wsSplitGo rest []
    else wsSplitGo rest (c :: cur)

/-- Python `payload.split()`. -/
def pyWhitespaceSplit (s : String) : List String :=
  (wsSplitGo s.toList []).map (fun l => String.mk l)

/-- `parse_mcp_server_spec` from `src/aider/mcp/manager.py`: split into at
most three parts on `:`; fewer than two parts, an unknown transport, or a
missing payload yield no definition; a stdio payload is whitespace-split into
the command, a websocket payload is the url verbatim. -/
def parse_mcp_server_spec (server_spec : String) : Option MCPServerConfig :=
  match pySplitColon2 server_spec with
  | name :: transport :: rest =>
    if transport = "stdio" then
      match rest with
      | [] => none
      | payload :: _ =>
        some { name := name, transport := transport,
               command := some (pyWhitespaceSplit payload) }
    else if transport = "websocket" then
      match rest with
      | [] => none
      | payload :: _ =>
        some { name := name, transport := transport, url := some payload }
    else none
  | _ => none

/-- The CLI-combination step of `MCPClient.setup_from_args` (lines 80-84 of
`src/aider/mcp/client.py`): for each CLI config, drop every resolved server
with the same name and append the CLI config at the end. -/
def applyCliServerConfigs (serverConfigs cliConfigs : List MCPServerConfig) :
    List MCPServerConfig :=
  cliConfigs.foldl
    (fun acc cli => acc.filter (fun s => s.name != cli.name) ++ [cli])
    serverConfigs

/-! ## Helper lemmas -/

/-- A string already in the valid-level list is unchanged by upper-casing. -/
theorem pyUpper_of_mem_validLogLevels {s : String} (h : s ∈ validLogLevels) :
    pyUpper s = s := by
  simp only [validLogLevels, List.mem_cons, List.not_mem_nil, or_false] at h
  rcases h with rfl | rfl | rfl | rfl | rfl <;> rfl

/-- Splitting an all-whitespace character list yields no pieces. -/
theorem wsSplitGo_all_whitespace {l : List Char}
    (h : ∀ c ∈ l, c.isWhitespace) : wsSplitGo l [] = [] := by
  induction l with
  | nil => rfl
  | cons c rest ih =>
    have hc : c.isWhitespace := h c (List.mem_cons_self c rest)
    simp only [wsSplitGo, hc, if_true, List.isEmpty_nil]
    exact ih (fun d hd => h d (List.mem_cons_of_mem c hd))

/-- Python `payload.split()` of an all-whitespace string is the empty list. -/
theorem pyWhitespaceSplit_all_whitespace {s : String}
    (h : ∀ c ∈ s.toList, c.isWhitespace) : pyWhitespaceSplit s = [] := by
  unfold pyWhitespaceSplit
  rw [wsSplitGo_all_whitespace h]
  rfl

/-! ## C8: websocket url scheme validation -/

/-- C8: `validate` applied to a Configuration with default Settings and the
single server `{name: "x", transport: "websocket", url: "http://bad"}` returns
exactly one issue, and that issue concerns the url scheme (ws:// or wss://
required). -/
theorem validate_bad_websocket_scheme_single_issue :
    validate_configuration
      { settings := {},
        servers := [{ name := "x", transport := "websocket",
                      url := some "http://bad" }] } =
      ["Server 0 (x): websocket url must start with ws:// or wss://"] := by
  decide

/-! ## C10: whitespace-only stdio payload parses to an empty command -/

/-- C10: a CLI server spec `name:stdio:payload` whose payload contains no
non-whitespace characters parses to a definition whose command is the empty
list (not "no definition produced"), and `validate` subsequently flags that
definition with the stdio-requires-command issue. -/
theorem parse_stdio_blank_payload_empty_command :
    ∀ (spec name payload : String),
      pySplitColon2 spec = [name, "stdio", payload] →
      (∀ c ∈ payload.toList, c.isWhitespace) →
      parse_mcp_server_spec spec =
        some { name := name, transport := "stdio", command := some [] } ∧
      ("Server 0 (" ++ name ++ "): stdio transport requires command") ∈
        validate_configuration
          { settings := {},
            servers := [{ name := name, transport := "stdio",
                          command := some [] }] } := by
  intro spec name payload hsplit hws
  constructor
  · simp only [parse_mcp_server_spec, hsplit]
    simp [pyWhitespaceSplit_all_whitespace hws]
  · have h0 : (toString (0 : Nat) : String) = "0" := rfl
    simp only [validate_configuration, validateServers, validateServerConfig, h0]
    simp [cmdTruthy, String.append_assoc]

/-- Witness for C10 at the concrete spec string `"s1:stdio: "`. -/
theorem parse_stdio_blank_payload_empty_command_witness :
    parse_mcp_server_spec "s1:stdio: " =
      some { name := "s1", transport := "stdio", command := some [] } ∧
    ("Server 0 (s1): stdio transport requires command") ∈
      validate_configuration
        { settings := {},
          servers := [{ name := "s1", transport := "stdio",
                        command := some [] }] } :=
  parse_stdio_blank_payload_empty_command "s1:stdio: " "s1" " " (by decide)
    (by decide)

/-! ## C7: CLI-supplied servers are removed-and-appended, not replaced in place -/

/-- C7 counterexample: combining the resolved list `[a(old), b]` with the CLI
server `a(new)` yields `[b, a(new)]` — the entry named `a` does NOT keep its
original first position, contradicting the claim's "replaces that entry in
place (the list retains the entry's position)". -/
theorem applyCliServerConfigs_not_in_place :
    applyCliServerConfigs
        [{ name := "a", transport := "stdio", command := some ["old"] },
         { name := "b", transport := "stdio", command := some ["b"] }]
        [{ name := "a", transport := "stdio", command := some ["new"] }] =
      [{ name := "b", transport := "stdio", command := some ["b"] },
       { name := "a", transport := "stdio", command := some ["new"] }] ∧
    applyCliServerConfigs
        [{ name := "a", transport := "stdio", command := some ["old"] },
         { name := "b", transport := "stdio", command := some ["b"] }]
        [{ name := "a", transport := "stdio", command := some ["new"] }] ≠
      [{ name := "a", transport := "stdio", command := some ["new"] },
       { name := "b", transport := "stdio", command := some ["b"] }] := by
  decide

/-- C7 (amended): combining one CLI server with the resolved list removes
every entry with the CLI server's name and appends the CLI server at the end
(the removed entry's position is not retained); entries with other names are
kept in their relative order, and a CLI server with a fresh name is appended
at the end with the resolved list unchanged. -/
theorem applyCliServerConfigs_removes_then_appends :
    ∀ (configs : List MCPServerConfig) (cli : MCPServerConfig),
      applyCliServerConfigs configs [cli] =
        configs.filter (fun s => s.name != cli.name) ++ [cli] ∧
      ((∀ s ∈ configs, s.name ≠ cli.name) →
        applyCliServerConfigs configs [cli] = configs ++ [cli]) := by
  intro configs cli
  constructor
  · rfl
  · intro h
    have hfilter : configs.filter (fun s => s.name != cli.name) = configs := by
      apply List.filter_eq_self.mpr
      intro s hs
      simpa using h s hs
    show configs.filter (fun s => s.name != cli.name) ++ [cli] = configs ++ [cli]
    rw [hfilter]

/-- Witness for C7's amended theorem: a fresh-named CLI server is appended. -/
theorem applyCliServerConfigs_removes_then_appends_witness :
    applyCliServerConfigs [{ name := "b", transport := "stdio" }]
        [{ name := "a", transport := "websocket", url := some "ws://x" }] =
      [{ name := "b", transport := "stdio" },
       { name := "a", transport := "websocket", url := some "ws://x" }] :=
  (applyCliServerConfigs_removes_then_appends
      [{ name := "b", transport := "stdio" }]
      { name := "a", transport := "websocket", url := some "ws://x" }).2
    (by decide)

/-! ## C3: server list merge is whole-list replacement -/

/-- C3: when the override layer's server list is non-empty, the merged
Configuration's server list equals exactly the override's server list; when the
override defines no servers, the merged server list equals the base's. -/
theorem mergeConfigurations_servers_replacement :
    ∀ (base override merged : MCPConfiguration),
      mergeConfigurations base override = some merged →
      (override.servers ≠ [] → merged.servers = override.servers) ∧
      (override.servers = [] → merged.servers = base.servers) := by
  intro base override merged h
  simp only [mergeConfigurations] at h
  cases hmk : mkSettingsFromDict
      (updateExcludeUnset base.settings.model_dump override.settings) with
  | none => rw [hmk] at h; simp at h
  | some s =>
    rw [hmk] at h
    simp only [Option.map_some', Option.some.injEq] at h
    subst h
    constructor
    · intro hne
      cases hl : override.servers with
      | nil => exact absurd hl hne
      | cons a rest => rfl
    · intro hnil
      rw [hnil]; rfl

/-- Witness for C3: a non-empty override server list wholly replaces the
base's. -/
theorem mergeConfigurations_servers_replacement_witness :
    ({ settings := { fieldsSet := SettingsFieldsSet.all },
       servers := [{ name := "o", transport := "stdio",
                     command := some ["o"] }] } : MCPConfiguration).servers =
      [{ name := "o", transport := "stdio", command := some ["o"] }] :=
  (mergeConfigurations_servers_replacement
      { settings := {},
        servers := [{ name := "b", transport := "stdio", command := some ["b"] }] }
      { settings := {},
        servers := [{ name := "o", transport := "stdio", command := some ["o"] }] }
      { settings := { fieldsSet := SettingsFieldsSet.all },
        servers := [{ name := "o", transport := "stdio", command := some ["o"] }] }
      (by decide)).1 (by decide)

/-! ## C2: settings merge is field-level override -/

/-- C2: merging produces Settings in which each field explicitly set in the
override equals the override's value and each field not set in the override
equals the base's value (field-level override, never whole-object
replacement), for all constructible (valid-log-level) settings. -/
theorem mergeConfigurations_settings_field_override :
    ∀ (base override : MCPConfiguration),
      base.settings.log_level ∈ validLogLevels →
      override.settings.log_level ∈ validLogLevels →
      (mergeConfigurations base override).map (fun c => c.settings.model_dump) =
        some
          { enabled := if override.settings.fieldsSet.enabled then
                override.settings.enabled else base.settings.enabled
            timeout := if override.settings.fieldsSet.timeout then
                override.settings.timeout else base.settings.timeout
            max_retries := if override.settings.fieldsSet.max_retries then
                override.settings.max_retries else base.settings.max_retries
            context_limit := if override.settings.fieldsSet.context_limit then
                override.settings.context_limit else base.settings.context_limit
            cache_ttl := if override.settings.fieldsSet.cache_ttl then
                override.settings.cache_ttl else base.settings.cache_ttl
            log_level := if override.settings.fieldsSet.log_level then
                override.settings.log_level else base.settings.log_level } := by
  intro base override hb ho
  have hmem : (if override.settings.fieldsSet.log_level then
      override.settings.log_level else base.settings.log_level) ∈ validLogLevels := by
    split <;> assumption
  have hup := pyUpper_of_mem_validLogLevels hmem
  simp only [mergeConfigurations, mkSettingsFromDict, updateExcludeUnset,
    MCPSettings.model_dump]
  rw [hup, if_pos hmem]
  rfl

/-- Witness for C2: the override explicitly sets only `timeout`; the merged
settings take the override's timeout and the base's value everywhere else. -/
theorem mergeConfigurations_settings_field_override_witness :
    (mergeConfigurations
        { settings := { timeout := 7, log_level := "ERROR" } }
        { settings := { enabled := false, timeout := 99,
                        fieldsSet := { timeout := true } } }).map
        (fun c => c.settings.model_dump) =
      some { enabled := true, timeout := 99, max_retries := 3,
             context_limit := 10000, cache_ttl := 300, log_level := "ERROR" } :=
  mergeConfigurations_settings_field_override
    { settings := { timeout := 7, log_level := "ERROR" } }
    { settings := { enabled := false, timeout := 99,
                    fieldsSet := { timeout := true } } }
    (by decide) (by decide)

/-! ## C6: saving to an unresolvable scope writes nothing -/

/-- C6: `saveConfiguration` with scope `"project"` when no project root is
known (and likewise with any scope outside {global, project, local}) raises
the invalid-scope error and changes neither the filesystem nor the in-memory
cache. -/
theorem saveConfiguration_invalid_scope_no_write :
    ∀ (m : ManagerState) (fs : FS) (c : MCPConfiguration) (now : Nat)
      (scope : String),
      (scope = "project" → m.projectConfig = none) →
      scope ≠ "global" → scope ≠ "local" →
      saveConfiguration m fs c scope now =
        (m, fs, Except.error ("Invalid scope: " ++ scope)) := by
  intro m fs c now scope hproj hg hl
  unfold saveConfiguration resolveScopePath
  rw [if_neg hg]
  by_cases hp : scope = "project"
  · rw [if_pos hp, hproj hp]
  · rw [if_neg hp, if_neg hl]

/-- Witness for C6: saving to project scope with no known project root. -/
theorem saveConfiguration_invalid_scope_no_write_witness :
    saveConfiguration ⟨"/h/.aider/mcp-config.json", none, "/c/.aider.mcp.json",
        none, none, 0⟩ ⟨[]⟩ {} "project" 5 =
      (⟨"/h/.aider/mcp-config.json", none, "/c/.aider.mcp.json", none, none, 0⟩,
       ⟨[]⟩, Except.error ("Invalid scope: " ++ "project")) :=
  saveConfiguration_invalid_scope_no_write _ ⟨[]⟩ {} 5 "project"
    (fun _ => rfl) (by decide) (by decide)

/-! ## C9: the log-level invariant of constructible Settings -/

/-- C9: every constructible Settings value has a `log_level` in the valid
uppercase set; construction uppercases the input and fails exactly when the
uppercased input is outside the set; and `validate` never reports a
`log_level` issue (its result does not depend on `log_level` at all). -/
theorem mkMCPSettings_log_level_invariant :
    (∀ (d : SettingsData) (s : MCPSettings), mkMCPSettings d = some s →
        s.log_level ∈ validLogLevels) ∧
    (∀ (d : SettingsData) (v : String) (s : MCPSettings), d.log_level = some v →
        mkMCPSettings d = some s → s.log_level = pyUpper v) ∧
    (∀ d : SettingsData, mkMCPSettings d = none ↔
        ∃ v, d.log_level = some v ∧ pyUpper v ∉ validLogLevels) ∧
    (∀ (c : MCPConfiguration) (lvl : String),
        validate_configuration
          { c with settings := { c.settings with log_level := lvl } } =
          validate_configuration c) := by
  refine ⟨?_, ?_, ?_, ?_⟩
  · intro d s h
    unfold mkMCPSettings at h
    split at h
    · have := Option.some.inj h
      subst this
      show ("INFO" : String) ∈ validLogLevels
      decide
    · split at h
      · rename_i hv
        have := Option.some.inj h
        subst this
        exact hv
      · exact absurd h (by simp)
  · intro d v s hd h
    unfold mkMCPSettings at h
    split at h
    · rename_i heq
      rw [hd] at heq
      exact absurd heq (by simp)
    · rename_i v' heq
      rw [hd] at heq
      have hv' := Option.some.inj heq
      subst hv'
      split at h
      · have := Option.some.inj h
        subst this
        rfl
      · exact absurd h (by simp)
  · intro d
    unfold mkMCPSettings
    cases hd : d.log_level with
    | none => simp
    | some v =>
      by_cases hv : pyUpper v ∈ validLogLevels
      · simp [hv]
      · simp [hv]
  · intro c lvl
    rfl

/-- Witness for C9: constructing from `log_level = "debug"` succeeds with the
uppercased value, which is in the valid set. -/
theorem mkMCPSettings_log_level_invariant_witness :
    ({ enabled := true, timeout := 30, max_retries := 3, context_limit := 10000,
       cache_ttl := 300, log_level := "DEBUG",
       fieldsSet := ⟨false, false, false, false, false, true⟩ } :
        MCPSettings).log_level ∈ validLogLevels :=
  mkMCPSettings_log_level_invariant.1 { log_level := some "debug" } _ (by decide)

/-! ## C1: loading with no source files raises instead of returning defaults -/

/-- C1 (code bug): when none of the four source files exist, the resolution
itself produces the default Configuration and stores it in the cache, but
`load_configuration` then raises `FileNotFoundError` out of the unguarded
`os.path.getmtime(self._get_newest_config_file())` (config.py line 111),
because `_get_newest_config_file` falls back to the non-existent default
global path. This holds for every cache state and every `forceReload`. -/
theorem loadConfiguration_no_files_raises :
    ∀ (m : ManagerState) (forceReload : Bool),
      loadConfiguration m ⟨[]⟩ forceReload =
        ({ m with configCache := some {} }, Except.error "OSError") := by
  intro m b
  have hfilALL : ∀ m' : ManagerState, existingConfigFiles m' ⟨[]⟩ = [] := by
    intro m'
    unfold existingConfigFiles
    apply List.filter_eq_nil_iff.mpr
    intro a _
    simp [FS.fileExists]
  have hvalid : isCacheValid m ⟨[]⟩ = false := by
    unfold isCacheValid getNewestConfigFile
    rw [hfilALL]
    rfl
  have hstep : ∀ (acc : MCPConfiguration) (p : String), loadStep ⟨[]⟩ acc p = acc :=
    fun acc p => rfl
  have hfold : ∀ (l : List String) (acc : MCPConfiguration),
      l.foldl (loadStep ⟨[]⟩) acc = acc := by
    intro l
    induction l with
    | nil => intro acc; rfl
    | cons p rest ih => intro acc; rw [List.foldl_cons, hstep]; exact ih acc
  unfold loadConfiguration
  rw [hvalid, Bool.and_false, if_neg (by simp)]
  simp only [reloadConfiguration]
  rw [hfold]
  unfold getNewestConfigFile
  rw [hfilALL]
  rfl

/-! ## C4: cache validity characterization -/

/-- A file that does not exist cannot be statted. -/
theorem getmtime_none_of_not_fileExists {fs : FS} {p : String}
    (h : fs.fileExists p = false) : fs.getmtime p = none := by
  unfold FS.getmtime
  have hfind : fs.entries.find? (fun e => e.path == p) = none := by
    rw [List.find?_eq_none]
    exact List.any_eq_false.mp h
  rw [hfind]
  rfl

/-- The `max` loop raises as soon as some remaining file cannot be statted. -/
theorem pyMaxGo_none (fs : FS) :
    ∀ (l : List String) (best : String) (t : Nat),
      (∃ p ∈ l, fs.getmtime p = none) → pyMaxGo fs best t l = none := by
  intro l
  induction l with
  | nil =>
    intro best t h
    rcases h with ⟨p, hp, _⟩
    exact absurd hp (List.not_mem_nil p)
  | cons q rest ih =>
    intro best t h
    rcases h with ⟨p, hp, hmt⟩
    simp only [pyMaxGo]
    split
    · rfl
    · rename_i tq hq
      rcases List.mem_cons.mp hp with rfl | hrest
      · rw [hq] at hmt
        cases hmt
      · split
        · exact ih _ _ ⟨p, hrest, hmt⟩
        · exact ih _ _ ⟨p, hrest, hmt⟩

/-- The `max` loop, when every remaining file stats, returns a file whose
modification time is the running maximum of all the times seen. -/
theorem pyMaxGo_some (fs : FS) :
    ∀ (l : List String) (best : String) (t : Nat),
      (∀ p ∈ l, (fs.getmtime p).isSome) → fs.getmtime best = some t →
      ∃ q, pyMaxGo fs best t l =
          some (q, (l.filterMap (fun p => fs.getmtime p)).foldl max t) ∧
        fs.getmtime q =
          some ((l.filterMap (fun p => fs.getmtime p)).foldl max t) := by
  intro l
  induction l with
  | nil =>
    intro best t _ hbest
    exact ⟨best, rfl, by simpa using hbest⟩
  | cons p rest ih =>
    intro best t hall hbest
    have hp : (fs.getmtime p).isSome := hall p (List.mem_cons_self p rest)
    rcases Option.isSome_iff_exists.mp hp with ⟨tp, htp⟩
    simp only [pyMaxGo, List.filterMap_cons, htp, List.foldl_cons]
    by_cases hgt : tp > t
    · rw [if_pos hgt, Nat.max_eq_right (Nat.le_of_lt hgt)]
      exact ih p tp (fun q hq => hall q (List.mem_cons_of_mem p hq)) htp
    · rw [if_neg hgt, Nat.max_eq_left (Nat.le_of_not_lt hgt)]
      exact ih best t (fun q hq => hall q (List.mem_cons_of_mem p hq)) hbest

/-- C4: the cache is valid iff the modification time of the newest existing
source file is at most the timestamp recorded at the last load, with any stat
failure (permission error, or no source files at all) making the cache
invalid; and an invalid cache makes the next `loadConfiguration(false)` (in
fact, any `loadConfiguration`) perform a real reload from the current files. -/
theorem isCacheValid_iff_newest_mtime_le :
    ∀ (m : ManagerState) (fs : FS),
      isCacheValid m fs = specCacheValid m fs ∧
      (isCacheValid m fs = false →
        ∀ b, loadConfiguration m fs b = reloadConfiguration m fs) := by
  intro m fs
  constructor
  · simp only [isCacheValid, getNewestConfigFile, specCacheValid]
    cases hex : existingConfigFiles m fs with
    | nil =>
      have hmemg : m.globalConfig ∈ managerConfigPaths m :=
        List.mem_filterMap.mpr ⟨some m.globalConfig, by simp [managerConfigPaths], rfl⟩
      have h1 := List.filter_eq_nil_iff.mp hex m.globalConfig hmemg
      have hgex : fs.fileExists m.globalConfig = false := by simpa using h1
      have hgmt := getmtime_none_of_not_fileExists hgex
      simp [hgmt]
    | cons q rest =>
      by_cases hall : ∀ p ∈ q :: rest, (fs.getmtime p).isSome
      · rcases Option.isSome_iff_exists.mp (hall q (List.mem_cons_self q rest)) with
          ⟨tq, htq⟩
        rcases pyMaxGo_some fs rest q tq
            (fun p hp => hall p (List.mem_cons_of_mem q hp)) htq with ⟨w, hgo, hw⟩
        have hallb : (q :: rest).all (fun p => (fs.getmtime p).isSome) = true :=
          List.all_eq_true.mpr hall
        simp only [List.isEmpty_cons, Bool.false_eq_true, if_false, pyMaxByMtime, htq,
          hgo, Option.map_some', hw, hallb, List.filterMap_cons, List.foldl_cons,
          Nat.zero_max]
        rfl
      · have hnone : ∃ p ∈ q :: rest, fs.getmtime p = none := by
          push_neg at hall
          rcases hall with ⟨p, hp, hns⟩
          exact ⟨p, hp, Option.not_isSome_iff_eq_none.mp hns⟩
        have hallb : (q :: rest).all (fun p => (fs.getmtime p).isSome) = false := by
          rcases hnone with ⟨p, hp, hn⟩
          apply List.all_eq_false.mpr
          exact ⟨p, hp, by simp [hn]⟩
        cases htq : fs.getmtime q with
        | none =>
          simp only [List.isEmpty_cons, Bool.false_eq_true, if_false, pyMaxByMtime,
            htq, Option.map_none', hallb]
          rfl
        | some tq =>
          have hrest : ∃ p ∈ rest, fs.getmtime p = none := by
            rcases hnone with ⟨p, hp, hn⟩
            rcases List.mem_cons.mp hp with rfl | hr
            · rw [htq] at hn; cases hn
            · exact ⟨p, hr, hn⟩
          have hgo := pyMaxGo_none fs rest q tq hrest
          simp only [List.isEmpty_cons, Bool.false_eq_true, if_false, pyMaxByMtime,
            htq, hgo, Option.map_none', hallb]
          rfl
  · intro h b
    unfold loadConfiguration
    rw [h, Bool.and_false, if_neg (by simp)]

/-- Witness for C4 at a filesystem with one config file newer than the
recorded timestamp: the cache is invalid on both characterizations and the
load is a real reload. -/
theorem isCacheValid_iff_newest_mtime_le_witness :
    (isCacheValid ⟨"/h/g.json", none, "/c/l.json", none, some {}, 3⟩
        ⟨[⟨"/c/l.json", some 9, some {}⟩]⟩ =
      specCacheValid ⟨"/h/g.json", none, "/c/l.json", none, some {}, 3⟩
        ⟨[⟨"/c/l.json", some 9, some {}⟩]⟩) ∧
    loadConfiguration ⟨"/h/g.json", none, "/c/l.json", none, some {}, 3⟩
        ⟨[⟨"/c/l.json", some 9, some {}⟩]⟩ false =
      reloadConfiguration ⟨"/h/g.json", none, "/c/l.json", none, some {}, 3⟩
        ⟨[⟨"/c/l.json", some 9, some {}⟩]⟩ :=
  ⟨(isCacheValid_iff_newest_mtime_le ⟨"/h/g.json", none, "/c/l.json", none, some {}, 3⟩
      ⟨[⟨"/c/l.json", some 9, some {}⟩]⟩).1,
   (isCacheValid_iff_newest_mtime_le ⟨"/h/g.json", none, "/c/l.json", none, some {}, 3⟩
      ⟨[⟨"/c/l.json", some 9, some {}⟩]⟩).2 (by decide) false⟩

/-! ## C5: save / load round trip -/

/-- Reading back the file just written yields the written content. -/
theorem FS.write_read (fs : FS) (p : String) (d : ConfigData) (now : Nat) :
    (fs.write p d now).read p = some d := by
  simp [FS.write, FS.read, List.find?_cons_of_pos]

/-- Statting the file just written yields the write time. -/
theorem FS.write_getmtime (fs : FS) (p : String) (d : ConfigData) (now : Nat) :
    (fs.write p d now).getmtime p = some now := by
  simp [FS.write, FS.getmtime, List.find?_cons_of_pos]

/-- The file just written exists. -/
theorem FS.write_fileExists_self (fs : FS) (p : String) (d : ConfigData) (now : Nat) :
    (fs.write p d now).fileExists p = true := by
  simp [FS.write, FS.fileExists]

/-- Helper: filtering out entries at `p` does not change existence at a
different path `q`. -/
theorem any_path_filter_ne (p q : String) (h : q ≠ p) :
    ∀ entries : List FSEntry,
      (entries.filter (fun e => e.path != p)).any (fun e => e.path == q) =
        entries.any (fun e => e.path == q) := by
  intro entries
  induction entries with
  | nil => rfl
  | cons e rest ih =>
    by_cases he : e.path = p
    · have h1 : (e.path != p) = false := by simp [he]
      have h2 : (e.path == q) = false := by simp [he]; exact fun hpq => h hpq.symm
      rw [List.filter_cons, h1]
      simp only [Bool.false_eq_true, if_false, List.any_cons, h2, Bool.false_or]
      exact ih
    · have h1 : (e.path != p) = true := by simp [he]
      rw [List.filter_cons, h1]
      simp only [if_true, List.any_cons, ih]

/-- Writing at `p` does not change existence at a different path `q`. -/
theorem FS.write_fileExists_other (fs : FS) (p q : String) (d : ConfigData)
    (now : Nat) (h : q ≠ p) :
    (fs.write p d now).fileExists q = fs.fileExists q := by
  unfold FS.write FS.fileExists
  simp only [List.any_cons]
  have h1 : (p == q) = false := by simp; exact fun hpq => h hpq.symm
  rw [h1]
  simp only [Bool.false_or]
  exact any_path_filter_ne p q h fs.entries

/-- The path a scope resolves to is one of the manager's config paths. -/
theorem resolveScopePath_mem {m : ManagerState} {scope path : String}
    (h : resolveScopePath m scope = some path) :
    path ∈ managerConfigPaths m := by
  unfold resolveScopePath at h
  split_ifs at h
  · have := Option.some.inj h
    subst this
    exact List.mem_filterMap.mpr ⟨some m.globalConfig, by simp, rfl⟩
  · exact List.mem_filterMap.mpr ⟨m.projectConfig, by simp, h⟩
  · have := Option.some.inj h
    subst this
    exact List.mem_filterMap.mpr ⟨some m.localConfig, by simp, rfl⟩

/-- Folding the load loop over paths none of which exist keeps the
accumulator. -/
theorem foldl_loadStep_of_no_files (fs : FS) :
    ∀ (l : List String), (∀ p ∈ l, fs.fileExists p = false) →
      ∀ acc, l.foldl (loadStep fs) acc = acc := by
  intro l
  induction l with
  | nil => intro _ acc; rfl
  | cons p rest ih =>
    intro h acc
    rw [List.foldl_cons]
    have hstep : loadStep fs acc p = acc := by
      simp [loadStep, h p (List.mem_cons_self p rest)]
    rw [hstep]
    exact ih (fun q hq => h q (List.mem_cons_of_mem p hq)) acc

/-- Folding the load loop over a duplicate-free path list in which only
`path` exists applies exactly one load step, at `path`. -/
theorem foldl_loadStep_single (fs : FS) :
    ∀ (l : List String) (path : String), path ∈ l → l.Nodup →
      (∀ q ∈ l, q ≠ path → fs.fileExists q = false) →
      ∀ acc, l.foldl (loadStep fs) acc = loadStep fs acc path := by
  intro l
  induction l with
  | nil => intro path hp; exact absurd hp (List.not_mem_nil path)
  | cons q rest ih =>
    intro path hp hnd hothers acc
    rw [List.foldl_cons]
    rcases List.mem_cons.mp hp with rfl | hrest
    · have hnotin : path ∉ rest := (List.nodup_cons.mp hnd).1
      exact foldl_loadStep_of_no_files fs rest
        (fun r hr => hothers r (List.mem_cons_of_mem _ hr)
          (fun he => hnotin (he ▸ hr))) _
    · have hq : q ≠ path := by
        rintro rfl
        exact (List.nodup_cons.mp hnd).1 hrest
      have hstep : loadStep fs acc q = acc := by
        simp [loadStep, hothers q (List.mem_cons_self q rest) hq]
      rw [hstep]
      exact ih path hrest (List.nodup_cons.mp hnd).2
        (fun r hr hne => hothers r (List.mem_cons_of_mem _ hr) hne) acc

/-- Filtering a duplicate-free list whose predicate holds exactly at `x`
yields `[x]`. -/
theorem filter_eq_singleton_of_unique (pred : String → Bool) :
    ∀ (l : List String) (x : String), x ∈ l → l.Nodup →
      pred x = true → (∀ q ∈ l, q ≠ x → pred q = false) →
      l.filter pred = [x] := by
  intro l
  induction l with
  | nil => intro x hx; exact absurd hx (List.not_mem_nil x)
  | cons q rest ih =>
    intro x hx hnd hpx hothers
    rcases List.mem_cons.mp hx with rfl | hrest
    · have hnotin : x ∉ rest := (List.nodup_cons.mp hnd).1
      rw [List.filter_cons_of_pos hpx]
      have hnil : rest.filter pred = [] := by
        apply List.filter_eq_nil_iff.mpr
        intro r hr
        have hne : r ≠ x := fun he => hnotin (he ▸ hr)
        simp [hothers r (List.mem_cons_of_mem _ hr) hne]
      rw [hnil]
    · have hq : q ≠ x := by
        rintro rfl
        exact (List.nodup_cons.mp hnd).1 hrest
      rw [List.filter_cons_of_neg
        (by simp [hothers q (List.mem_cons_self q rest) hq])]
      exact ih x hrest (List.nodup_cons.mp hnd).2 hpx
        (fun r hr hne => hothers r (List.mem_cons_of_mem _ hr) hne)

/-- Parsing back a dumped server list is the identity. -/
theorem map_mk_dump_servers :
    ∀ l : List MCPServerConfig,
      (l.map MCPServerConfig.dump).map mkMCPServerConfig = l := by
  intro l
  induction l with
  | nil => rfl
  | cons s rest ih =>
    simp only [List.map_cons]
    rw [ih]
    rfl

/-- Parsing back a dumped configuration succeeds and recovers the dumped
servers and settings values (with every settings field now marked as set). -/
theorem mkMCPConfiguration_dump (c : MCPConfiguration)
    (hWF : c.settings.log_level ∈ validLogLevels) :
    mkMCPConfiguration c.dump =
      some { settings := { c.settings with fieldsSet := SettingsFieldsSet.all },
             servers := c.servers } := by
  have hup := pyUpper_of_mem_validLogLevels hWF
  simp only [mkMCPConfiguration, MCPConfiguration.dump, MCPSettings.dumpData,
    mkMCPSettings, hup, if_pos hWF, Option.map_some', Option.getD_some]
  rw [map_mk_dump_servers]
  rfl

/-- Merging an all-fields-set override into the default configuration
reproduces the override. -/
theorem mergeConfigurations_default_allset (c : MCPConfiguration)
    (hWF : c.settings.log_level ∈ validLogLevels) :
    mergeConfigurations {}
        { settings := { c.settings with fieldsSet := SettingsFieldsSet.all },
          servers := c.servers } =
      some { settings := { c.settings with fieldsSet := SettingsFieldsSet.all },
             servers := c.servers } := by
  have hup := pyUpper_of_mem_validLogLevels hWF
  have hsrv : (if c.servers.isEmpty then ({} : MCPConfiguration).servers
      else c.servers) = c.servers := by
    cases hcs : c.servers with
    | nil => rfl
    | cons a rest => rfl
  simp only [mergeConfigurations, updateExcludeUnset, MCPSettings.model_dump,
    mkSettingsFromDict, SettingsFieldsSet.all, if_true, hup, if_pos hWF,
    Option.map_some', hsrv]

/-- C5: for every constructible Configuration and every resolvable scope,
`saveConfiguration` into a filesystem holding no other source files, followed
by `loadConfiguration(false)`, yields exactly the saved servers and settings
values (serialize-then-parse round trip); the save has cleared the cache, so
the load is a real read of the just-written file, and the resulting cache
timestamp is the written file's modification time. -/
theorem saveConfiguration_load_round_trip :
    ∀ (m m₁ : ManagerState) (fs fs₁ : FS) (c : MCPConfiguration)
      (scope savedPath : String) (now : Nat),
      saveConfiguration m fs c scope now = (m₁, fs₁, Except.ok savedPath) →
      c.settings.log_level ∈ validLogLevels →
      (∀ p ∈ managerConfigPaths m, fs.fileExists p = false) →
      (managerConfigPaths m).Nodup →
      loadConfiguration m₁ fs₁ false =
        ({ m₁ with
            configCache := some
              { settings := { c.settings with fieldsSet := SettingsFieldsSet.all },
                servers := c.servers },
            cacheTimestamp := now },
         Except.ok
           { settings := { c.settings with fieldsSet := SettingsFieldsSet.all },
             servers := c.servers }) := by
  intro m m₁ fs fs₁ c scope savedPath now hsave hWF hclean hnd
  unfold saveConfiguration at hsave
  cases hres : resolveScopePath m scope with
  | none =>
    rw [hres] at hsave
    exact absurd (congrArg (fun t => t.2.2) hsave) (by simp)
  | some cfgPath =>
    rw [hres] at hsave
    simp only [Prod.mk.injEq] at hsave
    obtain ⟨hm, hfs, _⟩ := hsave
    subst hm
    subst hfs
    have hmempath : cfgPath ∈ managerConfigPaths m := resolveScopePath_mem hres
    have hexists_self := FS.write_fileExists_self fs cfgPath c.dump now
    have hread := FS.write_read fs cfgPath c.dump now
    have hmt := FS.write_getmtime fs cfgPath c.dump now
    have hothers : ∀ q ∈ managerConfigPaths m, q ≠ cfgPath →
        (fs.write cfgPath c.dump now).fileExists q = false := by
      intro q hq hne
      rw [FS.write_fileExists_other fs cfgPath q c.dump now hne]
      exact hclean q hq
    have hload : loadConfiguration { m with configCache := none }
        (fs.write cfgPath c.dump now) false =
        reloadConfiguration { m with configCache := none }
          (fs.write cfgPath c.dump now) := rfl
    rw [hload]
    simp only [reloadConfiguration]
    have hpaths : managerConfigPaths { m with configCache := none } =
        managerConfigPaths m := rfl
    rw [hpaths]
    rw [foldl_loadStep_single (fs.write cfgPath c.dump now) (managerConfigPaths m)
      cfgPath hmempath hnd hothers]
    have hstep : loadStep (fs.write cfgPath c.dump now) {} cfgPath =
        { settings := { c.settings with fieldsSet := SettingsFieldsSet.all },
          servers := c.servers } := by
      simp only [loadStep, hexists_self, if_true, hread,
        mkMCPConfiguration_dump c hWF, mergeConfigurations_default_allset c hWF]
    rw [hstep]
    have hex1 : existingConfigFiles
        { m with
          configCache := some ⟨{ c.settings with fieldsSet := SettingsFieldsSet.all }, c.servers⟩ }
        (fs.write cfgPath c.dump now) = [cfgPath] := by
      unfold existingConfigFiles
      exact filter_eq_singleton_of_unique _ (managerConfigPaths m) cfgPath
        hmempath hnd hexists_self hothers
    simp only [getNewestConfigFile, hex1, List.isEmpty_cons, Bool.false_eq_true,
      if_false, pyMaxByMtime, hmt, pyMaxGo, Option.map_some']

/-- Witness for C5: saving one stdio server to global scope on an empty
filesystem and loading again returns exactly the saved configuration. -/
theorem saveConfiguration_load_round_trip_witness :
    loadConfiguration
        ⟨"/h/.aider/mcp-config.json", none, "/c/.aider.mcp.json", none, none, 0⟩
        (FS.write ⟨[]⟩ "/h/.aider/mcp-config.json"
          (MCPConfiguration.dump
            ⟨{}, [⟨"s1", "stdio", some ["echo", "hi"], none, none, true⟩]⟩) 5)
        false =
      (⟨"/h/.aider/mcp-config.json", none, "/c/.aider.mcp.json", none,
        some ⟨{ log_level := "INFO", fieldsSet := SettingsFieldsSet.all },
              [⟨"s1", "stdio", some ["echo", "hi"], none, none, true⟩]⟩, 5⟩,
       Except.ok
         ⟨{ log_level := "INFO", fieldsSet := SettingsFieldsSet.all },
          [⟨"s1", "stdio", some ["echo", "hi"], none, none, true⟩]⟩) :=
  saveConfiguration_load_round_trip
    ⟨"/h/.aider/mcp-config.json", none, "/c/.aider.mcp.json", none, none, 0⟩
    ⟨"/h/.aider/mcp-config.json", none, "/c/.aider.mcp.json", none, none, 0⟩
    ⟨[]⟩
    (FS.write ⟨[]⟩ "/h/.aider/mcp-config.json"
      (MCPConfiguration.dump
        ⟨{}, [⟨"s1", "stdio", some ["echo", "hi"], none, none, true⟩]⟩) 5)
    ⟨{}, [⟨"s1", "stdio", some ["echo", "hi"], none, none, true⟩]⟩
    "global" "/h/.aider/mcp-config.json" 5
    rfl (by decide) (by decide) (by decide)

end AiderMCP
